import Mathlib

/-!
A shallow embedding of the dommit reactive data-binding engine
(src/lib/index.js) in Lean 4, together with spec-modelled renderings of the
external collaborators the engine consumes (model adapter, event emitter,
tree-walk primitive, named-binding protocol, interpolation detector), and
proofs of the behavioural claims about the engine.

Conventions of the embedding:
* JavaScript values are `Value`; `Value.undef` is the `undefined` sentinel.
* The orchestrator instance (`Reactive.prototype`) becomes an explicit state
  record `Reactive V`; methods become state-passing functions.
* Callbacks handed to `sub` are opaque external functions: they are named by
  a numeric identifier, and "the engine invoked callback `i` with arguments
  `a`" is recorded as a `TraceEvent.invoke i a` entry on an event trace kept
  in the state.  The closures the engine itself builds around callbacks
  (the nested-path wrapper of index.js lines 87-91 and the own-write-guard
  wrapper of lines 98-103) are the other two `Listener` constructors, and
  `runListener` is their interpreter.
-/

namespace Dommit

/-- JavaScript runtime values as the engine observes them.  Function values
are not represented here: the single place the engine calls a data value as
a function is the view delegate lookup (index.js line 147), which is
modelled by `ViewEntry.fn` below.  `NaN` is not modelled. -/
inductive Value where
  | undef
  | null
  | bool (b : Bool)
  | num (n : Int)
  | str (s : String)
  | obj (fields : List (String × Value))

/-- The `!== undefined` test of index.js line 140, as a Boolean on
`Value`. -/
def Value.isUndef : Value → Bool
  | Value.undef => true
  | _ => false

/-- JavaScript truthiness for `Value` (used by `if (viewVal)` on index.js
line 149). -/
def truthy : Value → Bool
  | Value.undef => false
  | Value.null => false
  | Value.bool b => b
  | Value.num n => n != 0
  | Value.str s => s != ""
  | Value.obj _ => true

/-- An entry of the view delegate, as `Reactive.prototype.get` distinguishes
them (index.js lines 144-151): either a function — which `get` invokes with
the delegate object as its execution context, so it is modelled as a Lean
function from the delegate object (of an arbitrary type `V`) to a value —
or a plain value.  A missing property reads as `ViewEntry.val Value.undef`,
exactly as a missing JavaScript object property reads as `undefined`. -/
inductive ViewEntry (V : Type) where
  | fn (f : V → Value)
  | val (v : Value)

/-- A DOM node: an element with a tag, an attribute list (name, value) and
children, or a text node with character data.  Comment and other node types
are irrelevant to the engine (it only inspects `nodeType == 1` and
`nodeType == 3`) and are omitted. -/
inductive DomNode where
  | element (tag : String) (attrs : List (String × String)) (children : List DomNode)
  | text (data : String)

/-- Modelled from the spec: the named-binding handler protocol
(src/lib/binding.js is not under src/).  Per §6 a handler is invoked with
the element, with `this` bound to a Binding instance holding the directive
attribute's string value, and may set the Binding's boolean `skip` flag
before returning.  DOM mutation performed by handlers is outside this
embedding; a handler is modelled by its observable traversal effect: the
value of the `skip` flag it leaves on the Binding, as a function of the
element and the attribute value. -/
abbrev Handler := DomNode → String → Bool

/-- The binding registry `self.bindings`: directive name to handler, in
insertion order (JavaScript string-keyed objects enumerate in insertion
order).  A `none` handler models a falsy registry value, which
`Reactive.prototype._bind` checks for (`if (!binding_fn) return`,
index.js line 247). -/
abbrev Registry := List (String × Option Handler)

/-- A listener held by the engine's emitter or by the adapter's
property-level notification mechanism.  `user id` is an opaque callback
supplied from outside, named by `id`.  `nested inner prop` is the wrapper
`function() { fn(self.get(prop)) }` that `sub` installs for multi-segment
paths (index.js lines 87-91).  `guard inner` is the wrapper
`function() { if (self._internal_set) return; fn.apply(this, arguments) }`
that `sub` hands to `adapter.subscribe` (index.js lines 98-103). -/
inductive Listener where
  | user (id : Nat)
  | nested (inner : Listener) (prop : String)
  | guard (inner : Listener)
  deriving DecidableEq, Repr

/-- Observable events of one engine run: an adapter-level write, an emitter
event emission, and an invocation of an opaque external callback. -/
inductive TraceEvent where
  | adapterWrite (prop : String) (v : Value)
  | emitted (event : String) (args : List Value)
  | invoke (id : Nat) (args : List Value)

/-- The state of one orchestrator instance (the fields the constructor,
index.js lines 33-45, sets up), over an arbitrary type `V` of view-delegate
objects:
* `store` — the fields of the wrapped model object, as maintained by the
  modelled default adapter (model and adapter instance are one-per-instance,
  so they are fused here);
* `listeners` — the emitter's listener table (`Emitter(Reactive.prototype)`,
  keyed by event name, in registration order);
* `adapterSubs` — the adapter's property-level subscription table;
* `internalSet` — the `_internal_set` own-write guard flag;
* `viewObj`, `view` — the view delegate object and its property lookup;
* `bindings` — the named-binding registry;
* `el` — the rendered root, present only after `render`;
* `trace` — the accumulated observable events. -/
structure Reactive (V : Type) where
  store : List (String × Value)
  listeners : List (String × Listener)
  adapterSubs : List (String × Listener)
  internalSet : Bool
  viewObj : V
  view : String → ViewEntry V
  bindings : Registry
  el : Option DomNode
  trace : List TraceEvent

/-- Helper of `jsSplitDot`: split the remaining characters at `'.'`,
accumulating the current segment in reverse. -/
def jsSplitDotAux : List Char → List Char → List String
  | [], acc => [String.mk acc.reverse]
  | c :: rest, acc =>
    if c = '.' then String.mk acc.reverse :: jsSplitDotAux rest []
    else jsSplitDotAux rest (c :: acc)

/-- JavaScript `prop.split('.')` (index.js line 85): the dot-delimited
segments of a property path, by structural recursion over the string's
characters.  `"a.b"` splits to `["a", "b"]`; a string with no dot splits
to the one-element list of itself; the result is never empty. -/
def jsSplitDot (s : String) : List String :=
  jsSplitDotAux s.data []

/-- JavaScript object-property assignment `m[k] = v` on an association
list: overwrite in place if the key is present (keeping its position),
otherwise append (insertion order). -/
def objSet {α : Type} (m : List (String × α)) (k : String) (v : α) : List (String × α) :=
  if m.any (fun e => e.1 == k) then m.map (fun e => if e.1 == k then (k, v) else e)
  else m ++ [(k, v)]

/-- Modelled from the spec: the default model adapter's get-by-path
(src/lib/adapter.js is not under src/; §2 and §6 specify `get(prop) ->
value|undefined` over dot-delimited paths).  Walks object fields segment by
segment; a missing key or a non-object intermediate yields `undefined`. -/
def pathGet : List (String × Value) → List String → Value
  | _, [] => Value.undef
  | st, [k] => (st.lookup k).getD Value.undef
  | st, k :: rest =>
    match st.lookup k with
    | some (Value.obj fields) => pathGet fields rest
    | _ => Value.undef

/-- Modelled from the spec: `adapter.get(prop)` — resolve the dot-delimited
path `prop` against the wrapped model's fields. -/
def adapterGet (st : List (String × Value)) (prop : String) : Value :=
  pathGet st (jsSplitDot prop)

/-- Modelled from the spec: the default adapter's set-by-path on the
wrapped model's fields.  The last segment is assigned with JavaScript
object-assignment semantics; a missing or non-object intermediate makes
the write a no-op (the spec does not give the adapter intermediate-object
creation). -/
def storeSetPath (st : List (String × Value)) : List String → Value → List (String × Value)
  | [], _ => st
  | [k], v => objSet st k v
  | k :: rest, v =>
    match st.lookup k with
    | some (Value.obj fields) => objSet st k (Value.obj (storeSetPath fields rest v))
    | _ => st

/-- `Reactive.prototype.get` (index.js lines 133-154): `"this"` returns the
model itself; else the adapter's value when it is not `undefined` (model
precedence); else the view-delegate entry — invoked with the delegate as
execution context when it is a function, returned as-is when truthy, and
`undefined` otherwise. -/
def Reactive.get {V : Type} (s : Reactive V) (prop : String) : Value :=
  if prop == "this" then Value.obj s.store
  else
    let modelVal := adapterGet s.store prop
    if !modelVal.isUndef then modelVal
    else
      match s.view prop with
      | ViewEntry.fn f => f s.viewObj
      | ViewEntry.val v => if truthy v then v else Value.undef

/-- Interpreter for `Listener`: the trace a listener produces when invoked
with `args` in state `s`.  An opaque callback records its invocation; the
nested-path wrapper discards its arguments and invokes the inner callback
with `self.get(prop)` (index.js line 90); the own-write-guard wrapper is a
no-op while `_internal_set` is raised and forwards its arguments otherwise
(index.js lines 99-102).  Listeners observe the state (store, guard flag,
view) but cannot mutate engine state: opaque callbacks are external code
whose only modelled effect is being invoked. -/
def runListener {V : Type} (s : Reactive V) : Listener → List Value → List TraceEvent
  | Listener.user id, args => [TraceEvent.invoke id args]
  | Listener.nested inner prop, _ => runListener s inner [s.get prop]
  | Listener.guard inner, args => if s.internalSet then [] else runListener s inner args

/-- Run a list of listeners in order with the same arguments, appending
their traces.  (Listeners cannot mutate engine state in this embedding, so
running them in sequence is the same as concatenating their traces.) -/
def notifyList {V : Type} (s : Reactive V) (ls : List Listener) (args : List Value) : Reactive V :=
  { s with trace := s.trace ++ (ls.map (fun l => runListener s l args)).flatten }

/-- Modelled from the spec: `adapter.subscribe(prop, cb)` (§6) — register a
listener on the adapter's property-level notification mechanism. -/
def Adapter.subscribe {V : Type} (s : Reactive V) (prop : String) (l : Listener) : Reactive V :=
  { s with adapterSubs := s.adapterSubs ++ [(prop, l)] }

/-- Remove the first occurrence of `a` from a list (how the emitter's `off`
and the adapter's `unsubscribe` drop a listener: they splice out the first
entry identical to the function handed to them). -/
def removeFirst {α : Type} [DecidableEq α] : List α → α → List α
  | [], _ => []
  | x :: rest, a => if x = a then rest else x :: removeFirst rest a

/-- Modelled from the spec: `adapter.unsubscribe(prop, cb)` (§6) — remove
the listener identical to `cb` registered under `prop`; a function that was
never registered removes nothing. -/
def Adapter.unsubscribe {V : Type} (s : Reactive V) (prop : String) (l : Listener) : Reactive V :=
  { s with adapterSubs := removeFirst s.adapterSubs (prop, l) }

/-- Modelled from the spec: `adapter.unsubscribeAll()` (§6). -/
def Adapter.unsubscribeAll {V : Type} (s : Reactive V) : Reactive V :=
  { s with adapterSubs := [] }

/-- Modelled from the spec: `adapter.set(prop, value)` (§6) — write the
value by path into the wrapped model and let the adapter's own change
detection notify the subscribers registered under exactly that property
name, passing the new value.  (It is this adapter-originated notification
that the own-write guard of §4.2/§4.3 exists to suppress.) -/
def Adapter.set {V : Type} (s : Reactive V) (prop : String) (v : Value) : Reactive V :=
  let s1 : Reactive V :=
    { s with store := storeSetPath s.store (jsSplitDot prop) v,
             trace := s.trace ++ [TraceEvent.adapterWrite prop v] }
  notifyList s1 ((s1.adapterSubs.filter (fun e => e.1 == prop)).map (fun e => e.2)) [v]

/-- Modelled from the spec: the emitter's `on(event, fn)` (§6, inherited
event emission) — append a listener under the event name. -/
def Reactive.on {V : Type} (s : Reactive V) (event : String) (l : Listener) : Reactive V :=
  { s with listeners := s.listeners ++ [(event, l)] }

/-- Modelled from the spec: the emitter's `off(event, fn)` — remove the
first listener registered under `event` identical to `fn`. -/
def Reactive.off {V : Type} (s : Reactive V) (event : String) (l : Listener) : Reactive V :=
  { s with listeners := removeFirst s.listeners (event, l) }

/-- Modelled from the spec: the emitter's `emit(event, args)` — record the
emission and run the listeners registered under `event`, in registration
order, with `args`. -/
def Reactive.emit {V : Type} (s : Reactive V) (event : String) (args : List Value) : Reactive V :=
  let s1 : Reactive V := { s with trace := s.trace ++ [TraceEvent.emitted event args] }
  notifyList s1 ((s1.listeners.filter (fun e => e.1 == event)).map (fun e => e.2)) args

/-- `Reactive.prototype.sub` (index.js lines 78-106), fuelled.  When `prop`
has several dot-segments the source recursively subscribes to the first
segment with the nested-path wrapper; since the first segment of a split
contains no separator, that recursion always bottoms out at depth two, and
the fuel `(jsSplitDot prop).length ≥ 1` provided by `Reactive.sub` below
always suffices.  Then the callback is registered on the engine's
`"change " ++ prop` event, and the guard wrapper around it on the adapter's
notification mechanism for `prop`. -/
def Reactive.subAux {V : Type} : Nat → Reactive V → String → Listener → Reactive V
  | 0, s, _, _ => s
  | fuel + 1, s, prop, fn =>
    let parts := jsSplitDot prop
    let s1 := if parts.length > 1 then
        Reactive.subAux fuel s parts.headI (Listener.nested fn prop)
      else s
    let s2 := Reactive.on s1 ("change " ++ prop) fn
    Adapter.subscribe s2 prop (Listener.guard fn)

/-- `Reactive.prototype.sub(prop, fn)`. -/
def Reactive.sub {V : Type} (s : Reactive V) (prop : String) (fn : Listener) : Reactive V :=
  Reactive.subAux (jsSplitDot prop).length s prop fn

/-- `Reactive.prototype.unsub` (index.js lines 117-122):
`this.off('change ' + prop, fn); this.adapter.unsubscribe(prop, fn)`.
Note that `fn` itself — not the guard wrapper that `sub` actually handed to
`adapter.subscribe` — is passed to the adapter. -/
def Reactive.unsub {V : Type} (s : Reactive V) (prop : String) (fn : Listener) : Reactive V :=
  Adapter.unsubscribe (Reactive.off s ("change " ++ prop) fn) prop fn

/-- The single-property arm of `Reactive.prototype.set` (index.js lines
174-181): raise `_internal_set`, delegate the write to the adapter, emit
`"change " ++ prop` synchronously, clear the flag. -/
def Reactive.setOne {V : Type} (s : Reactive V) (prop : String) (v : Value) : Reactive V :=
  let s1 : Reactive V := { s with internalSet := true }
  let s2 := Adapter.set s1 prop v
  let s3 := Reactive.emit s2 ("change " ++ prop) [v]
  { s3 with internalSet := false }

/-- The argument forms of `Reactive.prototype.set`: a single property and
value, or an object mapping properties to values (`'object' == typeof prop`,
index.js line 167). -/
inductive SetArg where
  | single (prop : String) (v : Value)
  | multi (m : List (String × Value))

/-- `Reactive.prototype.set` (index.js lines 165-182).  The object form
iterates `Object.keys` in insertion order and re-enters `set` per key,
which dispatches to the single-property arm since keys are strings. -/
def Reactive.set {V : Type} (s : Reactive V) : SetArg → Reactive V
  | SetArg.single prop v => Reactive.setOne s prop v
  | SetArg.multi m => m.foldl (fun acc kv => Reactive.setOne acc kv.1 kv.2) s

/-- The sequential form the specification compares the object form of `set`
against: `set(k, m[k])` for each key of `m` in insertion order. -/
def setSeq {V : Type} (s : Reactive V) : List (String × Value) → Reactive V
  | [] => s
  | kv :: rest => setSeq (Reactive.set s (SetArg.single kv.1 kv.2)) rest

/-- The attribute map `_bind` builds per element (index.js lines 228-233):
`attrs[name] = attr` with later writes overwriting earlier ones, so a
lookup sees the last attribute of that name. -/
def attrLookup (attrs : List (String × String)) (name : String) : Option String :=
  ((attrs.filter (fun a => a.1 == name)).getLast?).map (fun a => a.2)

/-- The named-binding loop of `Reactive.prototype._bind` (index.js lines
238-256): iterate the registry in insertion order; for each name that is
present among the element's attributes — and only while no earlier binding
of this iteration requested a skip — and whose registry value is truthy,
construct and activate a Binding and absorb its `skip` flag.  Returns the
final skip flag and the names activated, in order. -/
def runNamed (reg : Registry) (el : DomNode) (attrs : List (String × String)) :
    Bool × List String :=
  reg.foldl
    (fun acc entry =>
      match attrLookup attrs entry.1 with
      | none => acc
      | some v =>
        if acc.1 then acc
        else
          match entry.2 with
          | none => acc
          | some fn => (acc.1 || fn el v, acc.2 ++ [entry.1]))
    (false, [])

/-- Specification-side description of which named bindings a single element
activates: the registry entries, in registry order, whose name matches an
attribute and whose handler is truthy, paired with the skip flag each
handler sets. -/
def matchedBindings (reg : Registry) (el : DomNode) (attrs : List (String × String)) :
    List (String × Bool) :=
  reg.filterMap
    (fun entry =>
      match attrLookup attrs entry.1, entry.2 with
      | some v, some fn => some (entry.1, fn el v)
      | _, _ => none)

/-- Specification-side description of the activation prefix: matching
bindings are activated in order up to and including the first one that sets
`skip`; none after it. -/
def takeThroughSkip : List (String × Bool) → List String
  | [] => []
  | (n, true) :: _ => [n]
  | (n, false) :: rest => n :: takeThroughSkip rest

/-- The names of the named bindings an element activates, per the
specification's reading of the traversal. -/
def activatedNames (reg : Registry) (el : DomNode) (attrs : List (String × String)) :
    List String :=
  takeThroughSkip (matchedBindings reg el attrs)

/-- Whether some activated named binding of the element requested a skip. -/
def anySkip (reg : Registry) (el : DomNode) (attrs : List (String × String)) : Bool :=
  (matchedBindings reg el attrs).any (fun e => e.2)

/-- The kinds of bindings `_bind` installs: a named directive binding, an
attribute-interpolation binding (`new AttrBinding`), or a text-interpolation
binding (`new TextBinding`). -/
inductive BindKind where
  | named (name : String)
  | attrInterp (attr : String)
  | textInterp
  deriving DecidableEq, Repr

/-- One binding installation performed during a `_bind` pass, at the node
addressed by `path` (the child-index route from the render root). -/
structure BindEvent where
  path : List Nat
  kind : BindKind
  deriving DecidableEq, Repr

/-- `inDomTree` (index.js lines 360-368) asks whether a node has a parent.
During a walk from the render root every visited node except the root
itself has a parent; the root produced by `domify` is detached.  (The IE8
exception swallow is vacuous here.) -/
def inDomTreePath (path : List Nat) : Bool :=
  !path.isEmpty

mutual

/-- The visitor of `Reactive.prototype._bind` (index.js lines 218-284)
composed with the walk primitive, producing the list of binding
installations.  On an element: run the named-binding loop; if any binding
requested a skip, call `next(skip)` — children are not descended into and
no interpolation binding is installed; otherwise install an
attribute-interpolation binding for every attribute whose value contains an
interpolation marker (in attribute order) and descend.  On a text node
still attached to the tree whose data contains a marker, install a
text-interpolation binding.  `hi` is the external `utils.hasInterpolation`
predicate (spec §6), and the walk itself is the spec §6 traversal
primitive: pre-order, with `next(skip)` omitting the children of the
current node and moving to the next sibling. -/
def walkB (reg : Registry) (hi : String → Bool) : DomNode → List Nat → List BindEvent
  | DomNode.element tag attrs cs, path =>
    let r := runNamed reg (DomNode.element tag attrs cs) attrs
    let namedEvs := r.2.map (fun n => BindEvent.mk path (BindKind.named n))
    if r.1 then namedEvs
    else
      namedEvs
        ++ (attrs.filter (fun a => hi a.2)).map (fun a => BindEvent.mk path (BindKind.attrInterp a.1))
        ++ walkBChildren reg hi cs 0 path
  | DomNode.text d, path =>
    if inDomTreePath path && hi d then [BindEvent.mk path BindKind.textInterp] else []

/-- Walk a list of sibling nodes in order, numbering them from `i` under
the parent path `path`. -/
def walkBChildren (reg : Registry) (hi : String → Bool) :
    List DomNode → Nat → List Nat → List BindEvent
  | [], _, _ => []
  | c :: rest, i, path =>
    walkB reg hi c (path ++ [i]) ++ walkBChildren reg hi rest (i + 1) path

end

/-- `Reactive.prototype.render` (index.js lines 57-67): record the root and
run the `_bind` pass over it (the `domify` of a markup string is outside
the engine; the root arrives as a DOM tree).  The binding installations the
pass performs are returned alongside the new state. -/
def Reactive.render {V : Type} (s : Reactive V) (hi : String → Bool) (el : DomNode) :
    Reactive V × List BindEvent :=
  ({ s with el := some el }, walkB s.bindings hi el [])

/-- `Reactive.prototype.bind(name, fn)` (index.js lines 294-309, string
form; the object form recurses into this one per key): before a rendered
root exists the handler is stored in the registry; afterwards a
configuration error is thrown. -/
def Reactive.bind {V : Type} (s : Reactive V) (name : String) (fn : Option Handler) :
    Except String (Reactive V) :=
  if s.el.isNone then Except.ok { s with bindings := objSet s.bindings name fn }
  else Except.error ".bind() cannot be called after .render()"

/-- `Reactive.prototype.destroy` (index.js lines 319-330): detach the
rendered root from its parent (a DOM effect outside this state), tell the
adapter to drop all subscriptions, emit the terminal `destroyed` event,
remove all emitter listeners, and delete the rendered-root reference. -/
def Reactive.destroy {V : Type} (s : Reactive V) : Reactive V :=
  let s1 := Adapter.unsubscribeAll s
  let s2 := Reactive.emit s1 "destroyed" []
  let s3 : Reactive V := { s2 with listeners := [] }
  { s3 with el := none }

/-- A freshly constructed orchestrator (index.js lines 33-45) over the
given model fields, with the trivial view delegate and an empty registry.
The constructor's `this.use(bindings)` applies the built-in default
bindings plugin, which spec §1 places out of scope; it is modelled as the
identity plugin, leaving the registry empty. -/
def Reactive.init (model : List (String × Value)) : Reactive Unit :=
  { store := model
    listeners := []
    adapterSubs := []
    internalSet := false
    viewObj := ()
    view := fun _ => ViewEntry.val Value.undef
    bindings := []
    el := none
    trace := [] }

/-- The invocations of callback `id` recorded on a trace, in order, each as
its argument list. -/
def invokesOf (id : Nat) (tr : List TraceEvent) : List (List Value) :=
  tr.filterMap
    (fun e =>
      match e with
      | TraceEvent.invoke j args => if j = id then some args else none
      | _ => none)

/-- Whether a listener closes over the opaque callback `id`. -/
def Listener.mentionsId (id : Nat) : Listener → Bool
  | Listener.user j => j == id
  | Listener.nested inner _ => Listener.mentionsId id inner
  | Listener.guard inner => Listener.mentionsId id inner

/-- `id` names a callback not yet registered anywhere in the state: no
emitter listener and no adapter subscription closes over it. -/
def idFresh {V : Type} (id : Nat) (s : Reactive V) : Bool :=
  s.listeners.all (fun e => !Listener.mentionsId id e.2)
    && s.adapterSubs.all (fun e => !Listener.mentionsId id e.2)

/-- The value-resolution policy exactly as the specification words it
(spec §4.1, quoted by claim C1): `"this"` yields the model object; else
the adapter is queried and a non-`undefined` answer is returned (model
over view); else the view delegate's entry for the property is invoked
with the delegate as execution context when callable, returned as-is when
truthy, and otherwise the result is `undefined`.  Stated independently of
`Reactive.get` so the two can be compared. -/
def getPolicySpec {V : Type} (s : Reactive V) (prop : String) : Value :=
  if prop = "this" then Value.obj s.store
  else if (adapterGet s.store prop).isUndef = false then adapterGet s.store prop
  else
    match s.view prop with
    | ViewEntry.fn f => f s.viewObj
    | ViewEntry.val v => if truthy v = true then v else Value.undef

/-- The observable identity of one orchestrator for the subview claim:
which registry it holds (as a reference into a heap of registries, since
`subview` shares the parent's registry object by reference), the adapter
constructor handed in through its options (`opt.adapter`; `none` means the
default adapter), the identity of its per-instance adapter, the identity
of its view-delegate object (also shared by reference), and its rendered
root. -/
structure MiniOrch where
  regId : Nat
  adapterCtor : Option Nat
  adapterInst : Nat
  delegateId : Nat
  el : Option DomNode

/-- A world of orchestrators with reference-shared structure made
explicit: a heap of binding registries (aliasing a registry = holding the
same index), a counter allocating fresh view-delegate identities, a
counter allocating fresh adapter-instance identities, and the constructed
orchestrators. -/
structure MiniWorld where
  regHeap : List Registry
  delegateCount : Nat
  instCount : Nat
  orchs : List MiniOrch

/-- The constructor `new Reactive(model, opt)` (index.js lines 33-45) at
the world level, for the fields the subview claim concerns: `opt.bindings`
present means the new orchestrator holds that very registry reference,
absent means a fresh empty registry; `opt.delegate` present is shared by
reference, absent allocates a fresh delegate; the adapter instance
`(opt.adapter || Adapter)(model)` is freshly constructed either way.
Returns the world and the new orchestrator's index. -/
def MiniWorld.newOrch (w : MiniWorld) (optAdapter : Option Nat) (optBindings : Option Nat)
    (optDelegate : Option Nat) : MiniWorld × Nat :=
  let rh := match optBindings with
    | some r => (r, w.regHeap)
    | none => (w.regHeap.length, w.regHeap ++ [[]])
  let dd := match optDelegate with
    | some d => (d, w.delegateCount)
    | none => (w.delegateCount, w.delegateCount + 1)
  let orch : MiniOrch :=
    { regId := rh.1, adapterCtor := optAdapter, adapterInst := w.instCount,
      delegateId := dd.1, el := none }
  ({ regHeap := rh.2, delegateCount := dd.2, instCount := w.instCount + 1,
     orchs := w.orchs ++ [orch] },
   w.orchs.length)

/-- `Reactive.prototype.subview` (index.js lines 351-358): construct a new
orchestrator passing the parent's registry reference as `opt.bindings`,
the parent's configured adapter constructor (`this.opt.adapter`, not the
parent's adapter instance) as `opt.adapter`, and the parent's view
delegate (`this.view || {}`; the view is always an object, hence always
the parent's) as `opt.delegate`.  The subview's model is independent and
not tracked here. -/
def MiniWorld.subview (w : MiniWorld) (oid : Nat) : MiniWorld × Nat :=
  match w.orchs[oid]? with
  | none => (w, oid)
  | some parent => w.newOrch parent.adapterCtor (some parent.regId) (some parent.delegateId)

/-- The registry an orchestrator of the world currently sees. -/
def MiniWorld.regOf (w : MiniWorld) (oid : Nat) : Registry :=
  match w.orchs[oid]? with
  | none => []
  | some o => w.regHeap.getD o.regId []

/-- `Reactive.prototype.bind(name, fn)` at the world level: before the
orchestrator has a rendered root it mutates the registry it references
(visible through every alias); afterwards it raises the configuration
error. -/
def MiniWorld.bindW (w : MiniWorld) (oid : Nat) (name : String) (fn : Option Handler) :
    Except String MiniWorld :=
  match w.orchs[oid]? with
  | none => Except.ok w
  | some o =>
    if o.el.isNone then
      Except.ok
        { w with regHeap := w.regHeap.set o.regId (objSet (w.regHeap.getD o.regId []) name fn) }
    else Except.error ".bind() cannot be called after .render()"

/-- `Reactive.prototype.render` at the world level: run the `_bind` pass
with the registry the orchestrator references at render time, and record
its rendered root. -/
def MiniWorld.renderW (w : MiniWorld) (oid : Nat) (hi : String → Bool) (root : DomNode) :
    MiniWorld × List BindEvent :=
  match w.orchs[oid]? with
  | none => (w, [])
  | some o =>
    ({ w with orchs := w.orchs.set oid { o with el := some root } },
     walkB (w.regHeap.getD o.regId []) hi root [])

/-- A concrete orchestrator whose view delegate carries a function entry, a
truthy plain entry, and a falsy plain entry, used to exercise the view arm
of the resolution policy. -/
def c1ViewState : Reactive Unit :=
  { Reactive.init [("a", Value.num 5)] with
    view := fun p =>
      if p == "f" then ViewEntry.fn (fun _ => Value.num 7)
      else if p == "t" then ViewEntry.val (Value.str "x")
      else ViewEntry.val (Value.bool false) }

/-- A concrete orchestrator whose view delegate carries a truthy entry for
the property `"a"`, used to exhibit the shadowing of an `undefined` model
write by the view delegate. -/
def c9ViewState : Reactive Unit :=
  { Reactive.init [] with
    view := fun p =>
      if p == "a" then ViewEntry.val (Value.str "x") else ViewEntry.val Value.undef }

/-- A concrete one-orchestrator world for exercising the subview factory. -/
def c7World : MiniWorld :=
  { regHeap := [[]], delegateCount := 1, instCount := 1,
    orchs := [{ regId := 0, adapterCtor := none, adapterInst := 0, delegateId := 0,
                el := none }] }

/-- The sole orchestrator of `c7World`. -/
def c7Parent : MiniOrch :=
  { regId := 0, adapterCtor := none, adapterInst := 0, delegateId := 0, el := none }

/-!  Theorems.  First, generic facts about the trace machinery. -/

theorem invokesOf_append (id : Nat) (a b : List TraceEvent) :
    invokesOf id (a ++ b) = invokesOf id a ++ invokesOf id b := by
  simp [invokesOf, List.filterMap_append]

theorem runListener_mentions_false {V : Type} (s : Reactive V) (id : Nat) (l : Listener)
    (args : List Value) (h : Listener.mentionsId id l = false) :
    invokesOf id (runListener s l args) = [] := by
  induction l generalizing args with
  | user j =>
    simp [Listener.mentionsId] at h
    simp [runListener, invokesOf, h]
  | nested inner prop ih =>
    simp [Listener.mentionsId] at h
    exact ih _ h
  | guard inner ih =>
    simp [Listener.mentionsId] at h
    by_cases hf : s.internalSet
    · simp [runListener, hf, invokesOf]
    · simp [runListener, hf, ih args h]

theorem flatten_invokes_nil {V : Type} (s : Reactive V) (id : Nat) (ls : List Listener)
    (args : List Value) (h : ∀ l ∈ ls, Listener.mentionsId id l = false) :
    invokesOf id ((ls.map (fun l => runListener s l args)).flatten) = [] := by
  induction ls with
  | nil => rfl
  | cons x rest ih =>
    simp only [List.map_cons, List.flatten_cons, invokesOf_append]
    rw [runListener_mentions_false s id x args (h x (by simp)),
      ih (fun e he => h e (by simp [he]))]
    rfl

theorem forall_snd_filter {id : Nat} (pred : String × Listener → Bool)
    (xs : List (String × Listener))
    (h : ∀ e ∈ xs, Listener.mentionsId id e.2 = false) :
    ∀ l ∈ List.map (fun e => e.2) (List.filter pred xs), Listener.mentionsId id l = false := by
  intro l hl
  simp only [List.mem_map, List.mem_filter] at hl
  obtain ⟨e, ⟨he, _⟩, rfl⟩ := hl
  exact h e he

theorem invokesOf_nil (id : Nat) : invokesOf id [] = [] := rfl

theorem invokesOf_adapterWrite (id : Nat) (p : String) (v : Value) :
    invokesOf id [TraceEvent.adapterWrite p v] = [] := rfl

theorem invokesOf_emitted (id : Nat) (e : String) (a : List Value) :
    invokesOf id [TraceEvent.emitted e a] = [] := rfl

theorem invokesOf_invoke_self (id : Nat) (args : List Value) :
    invokesOf id [TraceEvent.invoke id args] = [args] := by
  simp [invokesOf]

/-- Claim C1 — `get` resolves by the fixed precedence policy: `"this"`
yields the model object; otherwise a non-`undefined` adapter value is
returned (model over view); otherwise a callable view-delegate entry is
invoked with the delegate as execution context, a truthy entry is returned
as-is, and anything else resolves to `undefined`.  The final conjunct
states the refinement against the policy transcribed verbatim from the
specification's wording. -/
theorem spec_c1_get_precedence {V : Type} (s : Reactive V) (prop : String) :
    (prop = "this" → Reactive.get s prop = Value.obj s.store)
    ∧ (prop ≠ "this" → (adapterGet s.store prop).isUndef = false →
        Reactive.get s prop = adapterGet s.store prop)
    ∧ (prop ≠ "this" → (adapterGet s.store prop).isUndef = true →
        (∀ f, s.view prop = ViewEntry.fn f → Reactive.get s prop = f s.viewObj)
        ∧ (∀ v, s.view prop = ViewEntry.val v → truthy v = true → Reactive.get s prop = v)
        ∧ (∀ v, s.view prop = ViewEntry.val v → truthy v = false →
            Reactive.get s prop = Value.undef))
    ∧ Reactive.get s prop = getPolicySpec s prop := by
  refine ⟨?_, ?_, ?_, ?_⟩
  · intro h
    simp [Reactive.get, h]
  · intro h h2
    simp [Reactive.get, h, h2]
  · intro h h2
    refine ⟨?_, ?_, ?_⟩
    · intro f hf
      simp [Reactive.get, h, h2, hf]
    · intro v hv htr
      simp [Reactive.get, h, h2, hv, htr]
    · intro v hv htr
      simp [Reactive.get, h, h2, hv, htr]
  · unfold Reactive.get getPolicySpec
    by_cases h : prop = "this"
    · simp [h]
    · simp only [h, beq_iff_eq, if_false, if_neg h]
      by_cases h2 : (adapterGet s.store prop).isUndef
      · simp [h2]
      · simp [h2]

/-- Witness for C1 at concrete states: each arm of the policy evaluated. -/
theorem spec_c1_get_precedence_witness :
    Reactive.get (Reactive.init [("a", Value.num 5)]) "this" = Value.obj [("a", Value.num 5)]
    ∧ Reactive.get (Reactive.init [("a", Value.num 5)]) "a" = Value.num 5
    ∧ Reactive.get c1ViewState "f" = Value.num 7
    ∧ Reactive.get c1ViewState "t" = Value.str "x"
    ∧ Reactive.get c1ViewState "z" = Value.undef :=
  ⟨(spec_c1_get_precedence (Reactive.init [("a", Value.num 5)]) "this").1 rfl,
   (spec_c1_get_precedence (Reactive.init [("a", Value.num 5)]) "a").2.1 (by decide) (by decide),
   ((spec_c1_get_precedence c1ViewState "f").2.2.1 (by decide) (by decide)).1
     (fun _ => Value.num 7) (by rfl),
   (((spec_c1_get_precedence c1ViewState "t").2.2.1 (by decide) (by decide)).2.1
     (Value.str "x") (by rfl) (by decide)),
   (((spec_c1_get_precedence c1ViewState "z").2.2.1 (by decide) (by decide)).2.2
     (Value.bool false) (by rfl) (by decide))⟩

/-- Claim C8 — the object form of `set` is the per-key single form,
applied to the keys in insertion order: the same adapter writes, the same
`"change " ++ k` emissions and the same final state, in the same order
(state equality includes the full event trace). -/
theorem spec_c8_set_object_form {V : Type} (s : Reactive V) (m : List (String × Value)) :
    Reactive.set s (SetArg.multi m) = setSeq s m := by
  show m.foldl (fun acc kv => Reactive.setOne acc kv.1 kv.2) s = setSeq s m
  induction m generalizing s with
  | nil => rfl
  | cons kv rest ih =>
    rw [List.foldl_cons, setSeq]
    exact ih (Reactive.setOne s kv.1 kv.2)

/-- Witness for C8 at a concrete two-key object. -/
theorem spec_c8_set_object_form_witness :
    Reactive.set (Reactive.init []) (SetArg.multi [("a", Value.num 1), ("b", Value.num 2)])
      = setSeq (Reactive.init []) [("a", Value.num 1), ("b", Value.num 2)] :=
  spec_c8_set_object_form (Reactive.init []) [("a", Value.num 1), ("b", Value.num 2)]

theorem isUndef_eq_false_of_ne (v : Value) (h : v ≠ Value.undef) : v.isUndef = false := by
  cases v
  · exact absurd rfl h
  all_goals rfl

/-- Claim C9, amended — for a property other than the reserved name
`"this"` and a defined (non-`undefined`) value, if the adapter stores
exactly what it is given then `set(p, v)` followed by `get(p)` returns
`v`. -/
theorem spec_c9_set_get_roundtrip {V : Type} (s : Reactive V) (p : String) (v : Value)
    (hp : p ≠ "this") (hv : v ≠ Value.undef)
    (hadapter : adapterGet (Reactive.set s (SetArg.single p v)).store p = v) :
    Reactive.get (Reactive.set s (SetArg.single p v)) p = v := by
  unfold Reactive.get
  simp [hp, hadapter, isUndef_eq_false_of_ne v hv]

/-- Counterexample to claim C9 as stated: two concrete violations.  With
`p = "this"`, the adapter faithfully stores the written value under the key
`"this"`, yet `get("this")` returns the model object itself, not the
value.  And with `v = undefined` written to a property shadowed by a
truthy view-delegate entry, the adapter faithfully reports `undefined`,
yet `get` returns the view value. -/
theorem spec_c9_counterexample :
    (adapterGet (Reactive.set (Reactive.init []) (SetArg.single "this" (Value.num 1))).store
        "this" = Value.num 1
      ∧ Reactive.get (Reactive.set (Reactive.init []) (SetArg.single "this" (Value.num 1)))
          "this" ≠ Value.num 1)
    ∧ (adapterGet (Reactive.set c9ViewState (SetArg.single "a" Value.undef)).store "a"
        = Value.undef
      ∧ Reactive.get (Reactive.set c9ViewState (SetArg.single "a" Value.undef)) "a"
        ≠ Value.undef) :=
  ⟨⟨rfl, fun h => Value.noConfusion h⟩, ⟨rfl, fun h => Value.noConfusion h⟩⟩

/-- Witness for the amended C9 at a concrete input. -/
theorem spec_c9_set_get_roundtrip_witness :
    Reactive.get (Reactive.set (Reactive.init []) (SetArg.single "a" (Value.num 2))) "a"
      = Value.num 2 :=
  spec_c9_set_get_roundtrip (Reactive.init []) "a" (Value.num 2) (by decide)
    (fun h => Value.noConfusion h) (by rfl)

/-!  The shape of the registrations `sub` installs. -/

theorem sub_single {V : Type} (s : Reactive V) (p : String) (fn : Listener)
    (hp : (jsSplitDot p).length = 1) :
    Reactive.sub s p fn =
      { s with listeners := s.listeners ++ [("change " ++ p, fn)],
               adapterSubs := s.adapterSubs ++ [(p, Listener.guard fn)] } := by
  unfold Reactive.sub
  rw [hp]
  simp [Reactive.subAux, hp, Reactive.on, Adapter.subscribe]

theorem sub_two {V : Type} (s : Reactive V) (prop p1 p2 : String) (fn : Listener)
    (h : jsSplitDot prop = [p1, p2]) (h1 : jsSplitDot p1 = [p1]) :
    Reactive.sub s prop fn =
      { s with
        listeners := s.listeners ++
          [("change " ++ p1, Listener.nested fn prop), ("change " ++ prop, fn)],
        adapterSubs := s.adapterSubs ++
          [(p1, Listener.guard (Listener.nested fn prop)), (prop, Listener.guard fn)] } := by
  unfold Reactive.sub
  rw [h]
  simp [Reactive.subAux, h, h1, Reactive.on, Adapter.subscribe, List.headI]

theorem ne_of_split {prop p1 p2 : String} (h : jsSplitDot prop = [p1, p2])
    (h1 : jsSplitDot p1 = [p1]) : p1 ≠ prop := by
  intro he
  subst he
  rw [h] at h1
  simp at h1

theorem string_append_left_cancel {a b c : String} (h : a ++ b = a ++ c) : b = c := by
  cases a with | mk as =>
  cases b with | mk bs =>
  cases c with | mk cs =>
  have h2 : as ++ bs = as ++ cs := by
    have := congrArg String.data h
    simpa using this
  have h3 : bs = cs := List.append_cancel_left h2
  rw [h3]

theorem changeEvent_ne {p q : String} (h : p ≠ q) :
    (("change " ++ p) == ("change " ++ q)) = false := by
  rw [beq_eq_false_iff_ne]
  intro hc
  exact h (string_append_left_cancel hc)

/-- Claim C3 — subscribing `cb` to a single-segment property `p` and then
running an engine-originated `set(p, v)` invokes `cb` exactly once, with
the change-event payload (the adapter-level listener installed by `sub` is
suppressed by the own-write guard), whereas an adapter-detected,
externally-originated mutation of `p` still invokes `cb`. -/
theorem spec_c3_no_double_invoke {V : Type} (s : Reactive V) (p : String) (id : Nat) (v : Value)
    (hp : (jsSplitDot p).length = 1) (hf : idFresh id s = true) (hg : s.internalSet = false) :
    invokesOf id
        (Reactive.set (Reactive.sub s p (Listener.user id)) (SetArg.single p v)).trace
      = invokesOf id s.trace ++ [[v]]
    ∧ invokesOf id (Adapter.set (Reactive.sub s p (Listener.user id)) p v).trace
      = invokesOf id s.trace ++ [[v]] := by
  simp only [idFresh, Bool.and_eq_true, List.all_eq_true, Bool.not_eq_true'] at hf
  obtain ⟨hfl, hfa⟩ := hf
  constructor
  · rw [sub_single s p (Listener.user id) hp]
    simp only [Reactive.set, Reactive.setOne, Adapter.set, Reactive.emit, notifyList,
      List.filter_append, List.map_append, List.flatten_append, invokesOf_append,
      List.filter_cons, List.filter_nil, List.map_cons, List.map_nil, List.flatten_cons,
      List.flatten_nil, beq_self_eq_true, if_true, runListener]
    rw [flatten_invokes_nil _ id _ [v] (forall_snd_filter _ _ hfa),
      flatten_invokes_nil _ id _ [v] (forall_snd_filter _ _ hfl)]
    simp [invokesOf_nil, invokesOf_adapterWrite, invokesOf_emitted, invokesOf_invoke_self]
  · rw [sub_single s p (Listener.user id) hp]
    simp only [Adapter.set, notifyList, List.filter_append, List.map_append,
      List.flatten_append, invokesOf_append, List.filter_cons, List.filter_nil,
      List.map_cons, List.map_nil, List.flatten_cons, List.flatten_nil,
      beq_self_eq_true, if_true, runListener, hg]
    rw [flatten_invokes_nil _ id _ [v] (forall_snd_filter _ _ hfa)]
    simp [invokesOf_nil, invokesOf_adapterWrite, invokesOf_emitted, invokesOf_invoke_self]

/-- Witness for C3 at a concrete input. -/
theorem spec_c3_no_double_invoke_witness :
    invokesOf 0
        (Reactive.set (Reactive.sub (Reactive.init []) "a" (Listener.user 0))
          (SetArg.single "a" (Value.num 1))).trace
      = invokesOf 0 (Reactive.init []).trace ++ [[Value.num 1]]
    ∧ invokesOf 0
        (Adapter.set (Reactive.sub (Reactive.init []) "a" (Listener.user 0)) "a"
          (Value.num 1)).trace
      = invokesOf 0 (Reactive.init []).trace ++ [[Value.num 1]] :=
  spec_c3_no_double_invoke (Reactive.init []) "a" 0 (Value.num 1) (by rfl) (by rfl) (by rfl)

theorem removeFirst_not_mem {α : Type} [DecidableEq α] (xs : List α) (a : α) (h : a ∉ xs) :
    removeFirst xs a = xs := by
  induction xs with
  | nil => rfl
  | cons x rest ih =>
    simp only [List.mem_cons, not_or] at h
    rw [removeFirst, if_neg (fun he => h.1 he.symm), ih h.2]

theorem removeFirst_append_of_not_mem {α : Type} [DecidableEq α] (xs ys : List α) (a : α)
    (h : a ∉ xs) : removeFirst (xs ++ ys) a = xs ++ removeFirst ys a := by
  induction xs with
  | nil => rfl
  | cons x rest ih =>
    simp only [List.mem_cons, not_or] at h
    rw [List.cons_append, removeFirst, if_neg (fun he => h.1 he.symm), ih h.2,
      List.cons_append]

theorem pair_not_mem_of_fresh {xs : List (String × Listener)} {id : Nat}
    (h : ∀ e ∈ xs, Listener.mentionsId id e.2 = false) (k : String) (l : Listener)
    (hl : Listener.mentionsId id l = true) : (k, l) ∉ xs := by
  intro hm
  have h2 := h (k, l) hm
  simp [h2] at hl

/-- Claim C4, amended — `unsub(p, fn)` removes `fn` from the engine's
`"change " ++ p` listeners and asks the adapter to remove `fn`; but since
`sub` registered an anonymous guard wrapper (not `fn`) with the adapter,
the adapter-level listener is not removed.  Consequently an
engine-originated `set(p, v)` no longer invokes `fn`, while an
adapter-detected external mutation of `p` still does; and for a
multi-segment path the recursive parent subscription is likewise left in
place. -/
theorem spec_c4_unsub_partial {V : Type} (s : Reactive V) (p : String) (id : Nat) (v : Value)
    (hp : (jsSplitDot p).length = 1) (hf : idFresh id s = true) (hg : s.internalSet = false) :
    (Reactive.unsub (Reactive.sub s p (Listener.user id)) p (Listener.user id)).listeners
      = s.listeners
    ∧ (Reactive.unsub (Reactive.sub s p (Listener.user id)) p (Listener.user id)).adapterSubs
      = s.adapterSubs ++ [(p, Listener.guard (Listener.user id))]
    ∧ invokesOf id
        (Reactive.set (Reactive.unsub (Reactive.sub s p (Listener.user id)) p
          (Listener.user id)) (SetArg.single p v)).trace
      = invokesOf id s.trace
    ∧ invokesOf id
        (Adapter.set (Reactive.unsub (Reactive.sub s p (Listener.user id)) p
          (Listener.user id)) p v).trace
      = invokesOf id s.trace ++ [[v]]
    ∧ (∀ prop p1 p2, jsSplitDot prop = [p1, p2] → jsSplitDot p1 = [p1] →
        (Reactive.unsub (Reactive.sub s prop (Listener.user id)) prop
          (Listener.user id)).listeners
          = s.listeners ++ [("change " ++ p1, Listener.nested (Listener.user id) prop)]) := by
  simp only [idFresh, Bool.and_eq_true, List.all_eq_true, Bool.not_eq_true'] at hf
  obtain ⟨hfl, hfa⟩ := hf
  have hm1 : ("change " ++ p, Listener.user id) ∉ s.listeners :=
    pair_not_mem_of_fresh hfl _ _ (by simp [Listener.mentionsId])
  have hm2 : (p, Listener.user id) ∉ s.adapterSubs :=
    pair_not_mem_of_fresh hfa _ _ (by simp [Listener.mentionsId])
  have hshape :
      Reactive.unsub (Reactive.sub s p (Listener.user id)) p (Listener.user id)
        = { s with adapterSubs := s.adapterSubs ++ [(p, Listener.guard (Listener.user id))] } := by
    rw [sub_single s p (Listener.user id) hp]
    unfold Reactive.unsub Reactive.off Adapter.unsubscribe
    rw [removeFirst_append_of_not_mem _ _ _ hm1, removeFirst_append_of_not_mem _ _ _ hm2]
    simp [removeFirst]
  refine ⟨?_, ?_, ?_, ?_, ?_⟩
  · rw [hshape]
  · rw [hshape]
  · rw [hshape]
    simp only [Reactive.set, Reactive.setOne, Adapter.set, Reactive.emit, notifyList,
      List.filter_append, List.map_append, List.flatten_append, invokesOf_append,
      List.filter_cons, List.filter_nil, List.map_cons, List.map_nil, List.flatten_cons,
      List.flatten_nil, beq_self_eq_true, if_true, runListener]
    rw [flatten_invokes_nil _ id _ [v] (forall_snd_filter _ _ hfa),
      flatten_invokes_nil _ id _ [v] (forall_snd_filter _ _ hfl)]
    simp [invokesOf_nil, invokesOf_adapterWrite, invokesOf_emitted, invokesOf_invoke_self]
  · rw [hshape]
    simp only [Adapter.set, notifyList, List.filter_append, List.map_append,
      List.flatten_append, invokesOf_append, List.filter_cons, List.filter_nil,
      List.map_cons, List.map_nil, List.flatten_cons, List.flatten_nil,
      beq_self_eq_true, if_true, runListener, hg]
    rw [flatten_invokes_nil _ id _ [v] (forall_snd_filter _ _ hfa)]
    simp [invokesOf_nil, invokesOf_adapterWrite, invokesOf_emitted, invokesOf_invoke_self]
  · intro prop p1 p2 h h1
    rw [sub_two s prop p1 p2 (Listener.user id) h h1]
    unfold Reactive.unsub Reactive.off Adapter.unsubscribe
    have hm3 : ("change " ++ prop, Listener.user id) ∉ s.listeners :=
      pair_not_mem_of_fresh hfl _ _ (by simp [Listener.mentionsId])
    rw [removeFirst_append_of_not_mem _ _ _ hm3]
    simp [removeFirst]

/-- Counterexample to C4 as stated: after `sub("a", cb)` then
`unsub("a", cb)`, an adapter-detected external mutation of `"a"` still
invokes `cb` — the adapter-level registration was not reversed. -/
theorem spec_c4_counterexample :
    invokesOf 0
        (Adapter.set (Reactive.unsub (Reactive.sub (Reactive.init []) "a" (Listener.user 0))
          "a" (Listener.user 0)) "a" (Value.num 1)).trace
      = [[Value.num 1]] := by
  rfl

/-- Witness for the amended C4 at a concrete input. -/
theorem spec_c4_unsub_partial_witness :
    (Reactive.unsub (Reactive.sub (Reactive.init []) "a" (Listener.user 0)) "a"
        (Listener.user 0)).listeners = (Reactive.init []).listeners
    ∧ (Reactive.unsub (Reactive.sub (Reactive.init []) "a" (Listener.user 0)) "a"
        (Listener.user 0)).adapterSubs
      = (Reactive.init []).adapterSubs ++ [("a", Listener.guard (Listener.user 0))]
    ∧ invokesOf 0
        (Reactive.set (Reactive.unsub (Reactive.sub (Reactive.init []) "a" (Listener.user 0))
          "a" (Listener.user 0)) (SetArg.single "a" (Value.num 1))).trace
      = invokesOf 0 (Reactive.init []).trace
    ∧ invokesOf 0
        (Adapter.set (Reactive.unsub (Reactive.sub (Reactive.init []) "a" (Listener.user 0))
          "a" (Listener.user 0)) "a" (Value.num 1)).trace
      = invokesOf 0 (Reactive.init []).trace ++ [[Value.num 1]]
    ∧ (∀ prop p1 p2, jsSplitDot prop = [p1, p2] → jsSplitDot p1 = [p1] →
        (Reactive.unsub (Reactive.sub (Reactive.init []) prop (Listener.user 0)) prop
          (Listener.user 0)).listeners
          = (Reactive.init []).listeners
            ++ [("change " ++ p1, Listener.nested (Listener.user 0) prop)]) :=
  spec_c4_unsub_partial (Reactive.init []) "a" 0 (Value.num 1) (by rfl) (by rfl) (by rfl)

/-- Claim C5 — a subscriber on a two-segment path `prop = p1 ++ "." ++ p2`
is invoked by `set(prop, x)` with the change-event payload, and also by
`set(p1, y)` on the parent, in which case it receives the freshly resolved
nested value `get(prop)` rather than the parent's own value. -/
theorem spec_c5_nested_paths {V : Type} (s : Reactive V) (prop p1 p2 : String) (id : Nat)
    (x y : Value) (h : jsSplitDot prop = [p1, p2]) (h1 : jsSplitDot p1 = [p1])
    (hf : idFresh id s = true) :
    invokesOf id
        (Reactive.set (Reactive.sub s prop (Listener.user id)) (SetArg.single prop x)).trace
      = invokesOf id s.trace ++ [[x]]
    ∧ invokesOf id
        (Reactive.set (Reactive.sub s prop (Listener.user id)) (SetArg.single p1 y)).trace
      = invokesOf id s.trace ++
          [[Reactive.get (Reactive.set (Reactive.sub s prop (Listener.user id))
              (SetArg.single p1 y)) prop]] := by
  simp only [idFresh, Bool.and_eq_true, List.all_eq_true, Bool.not_eq_true'] at hf
  obtain ⟨hfl, hfa⟩ := hf
  have hne : p1 ≠ prop := ne_of_split h h1
  have hb1 : (p1 == prop) = false := beq_eq_false_iff_ne.mpr hne
  have hb2 : (prop == p1) = false := beq_eq_false_iff_ne.mpr (Ne.symm hne)
  have hc1 : (("change " ++ p1) == ("change " ++ prop)) = false := changeEvent_ne hne
  have hc2 : (("change " ++ prop) == ("change " ++ p1)) = false := changeEvent_ne (Ne.symm hne)
  constructor
  · rw [sub_two s prop p1 p2 (Listener.user id) h h1]
    simp only [Reactive.set, Reactive.setOne, Adapter.set, Reactive.emit, notifyList,
      List.filter_append, List.map_append, List.flatten_append, invokesOf_append,
      List.filter_cons, List.filter_nil, List.map_cons, List.map_nil, List.flatten_cons,
      List.flatten_nil, beq_self_eq_true, if_true, hb1, hb2, hc1, hc2, Bool.false_eq_true,
      if_false, runListener]
    rw [flatten_invokes_nil _ id _ [x] (forall_snd_filter _ _ hfa),
      flatten_invokes_nil _ id _ [x] (forall_snd_filter _ _ hfl)]
    simp [invokesOf_nil, invokesOf_adapterWrite, invokesOf_emitted, invokesOf_invoke_self]
  · rw [sub_two s prop p1 p2 (Listener.user id) h h1]
    simp only [Reactive.set, Reactive.setOne, Adapter.set, Reactive.emit, notifyList,
      List.filter_append, List.map_append, List.flatten_append, invokesOf_append,
      List.filter_cons, List.filter_nil, List.map_cons, List.map_nil, List.flatten_cons,
      List.flatten_nil, beq_self_eq_true, if_true, hb1, hb2, hc1, hc2, Bool.false_eq_true,
      if_false, runListener, Reactive.get, adapterGet]
    rw [flatten_invokes_nil _ id _ [y] (forall_snd_filter _ _ hfa),
      flatten_invokes_nil _ id _ [y] (forall_snd_filter _ _ hfl)]
    simp [invokesOf_nil, invokesOf_adapterWrite, invokesOf_emitted, invokesOf_invoke_self]

/-- Witness for C5 at a concrete input: subscribing to `"a.b"`, writing
the path directly, and writing an object to the parent `"a"`. -/
theorem spec_c5_nested_paths_witness :
    invokesOf 0
        (Reactive.set (Reactive.sub (Reactive.init []) "a.b" (Listener.user 0))
          (SetArg.single "a.b" (Value.num 1))).trace
      = invokesOf 0 (Reactive.init []).trace ++ [[Value.num 1]]
    ∧ invokesOf 0
        (Reactive.set (Reactive.sub (Reactive.init []) "a.b" (Listener.user 0))
          (SetArg.single "a" (Value.obj [("b", Value.num 2)]))).trace
      = invokesOf 0 (Reactive.init []).trace ++
          [[Reactive.get (Reactive.set (Reactive.sub (Reactive.init []) "a.b" (Listener.user 0))
              (SetArg.single "a" (Value.obj [("b", Value.num 2)]))) "a.b"]] :=
  spec_c5_nested_paths (Reactive.init []) "a.b" "a" "b" 0 (Value.num 1)
    (Value.obj [("b", Value.num 2)]) (by rfl) (by rfl) (by rfl)

/-!  Characterization of the named-binding loop of `_bind`. -/

theorem runNamed_stop (el : DomNode) (attrs : List (String × String)) :
    ∀ (reg : Registry) (acc : List String),
      reg.foldl
        (fun acc entry =>
          match attrLookup attrs entry.1 with
          | none => acc
          | some v =>
            if acc.1 then acc
            else
              match entry.2 with
              | none => acc
              | some fn => (acc.1 || fn el v, acc.2 ++ [entry.1]))
        (true, acc) = (true, acc) := by
  intro reg
  induction reg with
  | nil => intro acc; rfl
  | cons e rest ih =>
    intro acc
    rw [List.foldl_cons]
    cases hA : attrLookup attrs e.1 with
    | none => simpa [hA] using ih acc
    | some v => simpa [hA] using ih acc

theorem runNamed_go (el : DomNode) (attrs : List (String × String)) :
    ∀ (reg : Registry) (acc : List String),
      reg.foldl
        (fun acc entry =>
          match attrLookup attrs entry.1 with
          | none => acc
          | some v =>
            if acc.1 then acc
            else
              match entry.2 with
              | none => acc
              | some fn => (acc.1 || fn el v, acc.2 ++ [entry.1]))
        (false, acc)
        = (anySkip reg el attrs, acc ++ activatedNames reg el attrs) := by
  intro reg
  induction reg with
  | nil =>
    intro acc
    simp [anySkip, activatedNames, matchedBindings, takeThroughSkip]
  | cons e rest ih =>
    intro acc
    rw [List.foldl_cons]
    cases hA : attrLookup attrs e.1 with
    | none =>
      simp only [hA]
      rw [ih acc]
      simp [anySkip, activatedNames, matchedBindings, List.filterMap_cons, hA]
    | some v =>
      cases hF : e.2 with
      | none =>
        simp only [hA, hF, Bool.false_eq_true, if_false]
        rw [ih acc]
        simp [anySkip, activatedNames, matchedBindings, List.filterMap_cons, hA, hF]
      | some fn =>
        cases hS : fn el v with
        | false =>
          simp only [hA, hF, hS, Bool.false_eq_true, if_false, Bool.false_or]
          rw [ih (acc ++ [e.1])]
          simp [anySkip, activatedNames, matchedBindings, List.filterMap_cons,
            takeThroughSkip, hA, hF, hS, List.append_assoc]
        | true =>
          simp only [hA, hF, hS, Bool.false_eq_true, if_false, Bool.false_or]
          rw [runNamed_stop el attrs rest (acc ++ [e.1])]
          simp [anySkip, activatedNames, matchedBindings, List.filterMap_cons,
            takeThroughSkip, hA, hF, hS]

theorem runNamed_char (reg : Registry) (el : DomNode) (attrs : List (String × String)) :
    runNamed reg el attrs = (anySkip reg el attrs, activatedNames reg el attrs) := by
  unfold runNamed
  simpa using runNamed_go el attrs reg []

theorem takeThroughSkip_sublist (l : List (String × Bool)) :
    List.Sublist (takeThroughSkip l) (l.map Prod.fst) := by
  induction l with
  | nil => simp [takeThroughSkip]
  | cons e rest ih =>
    cases e with
    | mk n b =>
      cases b
      · exact List.Sublist.cons₂ n ih
      · exact List.Sublist.cons₂ n (List.nil_sublist _)

theorem matched_names_sublist (reg : Registry) (el : DomNode)
    (attrs : List (String × String)) :
    List.Sublist ((matchedBindings reg el attrs).map Prod.fst) (reg.map Prod.fst) := by
  induction reg with
  | nil => simp [matchedBindings]
  | cons e rest ih =>
    unfold matchedBindings
    rw [List.filterMap_cons]
    cases hA : attrLookup attrs e.1 with
    | none => exact List.Sublist.cons _ ih
    | some v =>
      cases hF : e.2 with
      | none => exact List.Sublist.cons _ ih
      | some fn => exact List.Sublist.cons₂ _ ih

/-- Claim C2 — the single `_bind` traversal at an element: the
named-binding loop computes exactly the skip flag and the registry-ordered
activation prefix described by `activatedNames` (matching bindings are
activated in registry-key order up to and including the first one that
sets `skip`, and none after it); the activated names form a sublist of the
registry keys in order; when some binding skipped, the element contributes
only its named-binding activations — no attribute-interpolation binding,
and no event of any kind below the element (everything it contributes
carries the element's own path); when none skipped, named activations come
first, then the attribute interpolations, then the children's pass; and a
sibling list is processed element by element, the rest of the siblings
independently of what the first sibling did. -/
theorem spec_c2_skip_traversal (reg : Registry) (hi : String → Bool) (tag : String)
    (attrs : List (String × String)) (cs : List DomNode) (path : List Nat) (i : Nat)
    (sibs : List DomNode) :
    runNamed reg (DomNode.element tag attrs cs) attrs
      = (anySkip reg (DomNode.element tag attrs cs) attrs,
         activatedNames reg (DomNode.element tag attrs cs) attrs)
    ∧ List.Sublist (activatedNames reg (DomNode.element tag attrs cs) attrs)
        (reg.map Prod.fst)
    ∧ (anySkip reg (DomNode.element tag attrs cs) attrs = true →
        walkB reg hi (DomNode.element tag attrs cs) path
          = (activatedNames reg (DomNode.element tag attrs cs) attrs).map
              (fun n => BindEvent.mk path (BindKind.named n)))
    ∧ (anySkip reg (DomNode.element tag attrs cs) attrs = true →
        ∀ e ∈ walkB reg hi (DomNode.element tag attrs cs) path,
          e.path = path ∧ ∃ n, e.kind = BindKind.named n)
    ∧ (anySkip reg (DomNode.element tag attrs cs) attrs = false →
        walkB reg hi (DomNode.element tag attrs cs) path
          = (activatedNames reg (DomNode.element tag attrs cs) attrs).map
              (fun n => BindEvent.mk path (BindKind.named n))
            ++ (attrs.filter (fun a => hi a.2)).map
                (fun a => BindEvent.mk path (BindKind.attrInterp a.1))
            ++ walkBChildren reg hi cs 0 path)
    ∧ walkBChildren reg hi (DomNode.element tag attrs cs :: sibs) i path
        = walkB reg hi (DomNode.element tag attrs cs) (path ++ [i])
          ++ walkBChildren reg hi sibs (i + 1) path := by
  have hchar := runNamed_char reg (DomNode.element tag attrs cs) attrs
  have hskip : anySkip reg (DomNode.element tag attrs cs) attrs = true →
      walkB reg hi (DomNode.element tag attrs cs) path
        = (activatedNames reg (DomNode.element tag attrs cs) attrs).map
            (fun n => BindEvent.mk path (BindKind.named n)) := by
    intro h
    simp [walkB, hchar, h]
  refine ⟨hchar, ?_, hskip, ?_, ?_, ?_⟩
  · exact (takeThroughSkip_sublist _).trans
      (matched_names_sublist reg (DomNode.element tag attrs cs) attrs)
  · intro h e he
    rw [hskip h] at he
    simp only [List.mem_map] at he
    obtain ⟨n, _, rfl⟩ := he
    exact ⟨rfl, n, rfl⟩
  · intro h
    simp [walkB, hchar, h]
  · simp [walkBChildren]

/-- Witness for C2: a registry whose second matching binding skips.  The
element carries a fourth attribute with an interpolation marker and a text
child with a marker, yet the pass installs only the two named bindings up
to the skipper. -/
theorem spec_c2_skip_traversal_witness :
    anySkip
        [("a", some (fun _ _ => false)), ("b", some (fun _ _ => true)),
         ("c", some (fun _ _ => false))]
        (DomNode.element "div" [("a", ""), ("b", ""), ("c", ""), ("t", "m")]
          [DomNode.text "m"])
        [("a", ""), ("b", ""), ("c", ""), ("t", "m")] = true
    ∧ walkB
        [("a", some (fun _ _ => false)), ("b", some (fun _ _ => true)),
         ("c", some (fun _ _ => false))]
        (fun d => d != "")
        (DomNode.element "div" [("a", ""), ("b", ""), ("c", ""), ("t", "m")]
          [DomNode.text "m"])
        []
      = [BindEvent.mk [] (BindKind.named "a"), BindEvent.mk [] (BindKind.named "b")] :=
  ⟨by rfl,
   (spec_c2_skip_traversal
      [("a", some (fun _ _ => false)), ("b", some (fun _ _ => true)),
       ("c", some (fun _ _ => false))]
      (fun d => d != "") "div" [("a", ""), ("b", ""), ("c", ""), ("t", "m")]
      [DomNode.text "m"] [] 0 []).2.2.1 (by rfl)⟩

/-!  A binding freshly stored under `name` is activated on an element whose
only attribute is `name`: the machinery behind the "honored during the next
render" halves of the registration claims. -/

theorem attrLookup_single (n v m : String) :
    attrLookup [(n, v)] m = if n == m then some v else none := by
  unfold attrLookup
  by_cases h : n == m
  · simp [h]
  · simp [h]

theorem matchedBindings_nil_of_no_match (reg : Registry) (el : DomNode) (n v : String)
    (h : ∀ e ∈ reg, (e.1 == n) = false) :
    matchedBindings reg el [(n, v)] = [] := by
  induction reg with
  | nil => rfl
  | cons e rest ih =>
    unfold matchedBindings
    rw [List.filterMap_cons]
    have he := h e (by simp)
    have hne : (n == e.1) = false := by
      rw [beq_eq_false_iff_ne] at he ⊢
      exact fun hx => he hx.symm
    rw [attrLookup_single, hne, if_neg (by simp)]
    exact ih (fun x hx => h x (by simp [hx]))

theorem matchedBindings_cons_match (e : String × Option Handler) (reg : Registry)
    (el : DomNode) (attrs : List (String × String)) (v : String) (fn : Handler)
    (hA : attrLookup attrs e.1 = some v) (hF : e.2 = some fn) :
    matchedBindings (e :: reg) el attrs = (e.1, fn el v) :: matchedBindings reg el attrs := by
  unfold matchedBindings
  rw [List.filterMap_cons, hA, hF]

theorem matchedBindings_cons_skip (e : String × Option Handler) (reg : Registry)
    (el : DomNode) (attrs : List (String × String))
    (h : attrLookup attrs e.1 = none ∨ e.2 = none) :
    matchedBindings (e :: reg) el attrs = matchedBindings reg el attrs := by
  unfold matchedBindings
  rw [List.filterMap_cons]
  rcases h with h | h
  · rw [h]
  · rw [h]
    cases attrLookup attrs e.1 <;> rfl

theorem matchedBindings_overwrite (reg : Registry) (el : DomNode) (n : String) (h : Handler)
    (v : String) :
    matchedBindings (reg.map (fun e => if e.1 == n then (n, some h) else e)) el [(n, v)]
      = List.replicate (reg.countP (fun e => e.1 == n)) (n, h el v) := by
  induction reg with
  | nil => rfl
  | cons e rest ih =>
    obtain ⟨e1, e2⟩ := e
    rw [List.map_cons, List.countP_cons]
    by_cases hc : (e1 == n) = true
    · have hif : (if ((e1, e2).1 == n) = true then (n, some h) else (e1, e2))
          = (n, some h) := by simp [hc]
      rw [hif, matchedBindings_cons_match _ _ _ _ v h (by simp [attrLookup_single]) rfl, ih]
      simp [hc, List.replicate_succ]
    · have hc' : (e1 == n) = false := by simpa using hc
      have hne : (n == e1) = false := by
        rw [beq_eq_false_iff_ne] at hc' ⊢
        exact fun hx => hc' hx.symm
      have hif : (if ((e1, e2).1 == n) = true then (n, some h) else (e1, e2))
          = (e1, e2) := by simp [hc']
      rw [hif, matchedBindings_cons_skip _ _ _ _ (Or.inl (by simp [attrLookup_single, hne])),
        ih]
      simp [hc']

theorem matched_objSet (reg : Registry) (el : DomNode) (n : String) (h : Handler)
    (v : String) :
    matchedBindings (objSet reg n (some h)) el [(n, v)] ≠ []
    ∧ ∀ x ∈ matchedBindings (objSet reg n (some h)) el [(n, v)], x = (n, h el v) := by
  unfold objSet
  by_cases hmem : reg.any (fun e => e.1 == n)
  · rw [if_pos hmem, matchedBindings_overwrite]
    have hcount : 0 < reg.countP (fun e => e.1 == n) := by
      rw [List.countP_pos_iff]
      simpa [List.any_eq_true] using hmem
    constructor
    · rw [Ne, List.replicate_eq_nil_iff]
      omega
    · intro x hx
      exact (List.eq_of_mem_replicate hx)
  · rw [if_neg hmem]
    have hnone : matchedBindings reg el [(n, v)] = [] := by
      apply matchedBindings_nil_of_no_match
      intro e he
      by_contra hc
      exact hmem (List.any_eq_true.2 ⟨e, he, by simpa using hc⟩)
    have happ : matchedBindings (reg ++ [(n, some h)]) el [(n, v)] = [(n, h el v)] := by
      unfold matchedBindings
      rw [List.filterMap_append]
      unfold matchedBindings at hnone
      rw [hnone]
      rw [show (List.filterMap
          (fun entry =>
            match attrLookup [(n, v)] entry.1, entry.2 with
            | some v, some fn => some (entry.1, fn el v)
            | _, _ => none) [(n, some h)]) = [(n, h el v)] from ?_]
      · rfl
      · rw [List.filterMap_cons,
          show attrLookup [(n, v)] (n, some (h : Handler)).1 = some v from by
            simp [attrLookup_single]]
        rfl
    rw [happ]
    constructor
    · simp
    · intro x hx
      simpa using hx

theorem mem_takeThroughSkip_of_all {l : List (String × Bool)} {n : String} {b : Bool}
    (hne : l ≠ []) (hall : ∀ x ∈ l, x = (n, b)) : n ∈ takeThroughSkip l := by
  cases l with
  | nil => exact absurd rfl hne
  | cons x rest =>
    have hx := hall x (by simp)
    subst hx
    cases b
    · simp [takeThroughSkip]
    · simp [takeThroughSkip]

theorem named_mem_walkB (reg : Registry) (n : String) (h : Handler) (hi : String → Bool)
    (t v : String) (cs : List DomNode) (path : List Nat) :
    BindEvent.mk path (BindKind.named n)
      ∈ walkB (objSet reg n (some h)) hi (DomNode.element t [(n, v)] cs) path := by
  have hm := matched_objSet reg (DomNode.element t [(n, v)] cs) n h v
  have hmem : n ∈ activatedNames (objSet reg n (some h))
      (DomNode.element t [(n, v)] cs) [(n, v)] :=
    mem_takeThroughSkip_of_all hm.1 hm.2
  simp only [walkB, runNamed_char]
  by_cases hs : anySkip (objSet reg n (some h)) (DomNode.element t [(n, v)] cs) [(n, v)]
  · simp only [hs, if_true]
    exact List.mem_map_of_mem _ hmem
  · simp only [Bool.not_eq_true] at hs
    simp only [hs, Bool.false_eq_true, if_false]
    exact List.mem_append_left _ (List.mem_append_left _ (List.mem_map_of_mem _ hmem))

/-- Claim C6 — `bind(name, fn)` raises the configuration error exactly
when a rendered root exists: with a root present it returns the error (and,
the call having aborted, no new state); with no root it succeeds, the new
state's registry holds the handler under `name`, and the directive is
honored during the next render (rendering an element carrying the `name`
attribute activates the binding). -/
theorem spec_c6_bind_prerender_only {V : Type} (s : Reactive V) (n : String) (h : Handler) :
    (∀ e : DomNode, s.el = some e →
        Reactive.bind s n (some h)
          = Except.error ".bind() cannot be called after .render()")
    ∧ (s.el = none →
        Reactive.bind s n (some h)
            = Except.ok { s with bindings := objSet s.bindings n (some h) }
          ∧ ∀ hi t v cs,
              BindEvent.mk [] (BindKind.named n)
                ∈ (Reactive.render { s with bindings := objSet s.bindings n (some h) } hi
                    (DomNode.element t [(n, v)] cs)).2) := by
  constructor
  · intro e he
    simp [Reactive.bind, he]
  · intro he
    refine ⟨by simp [Reactive.bind, he], ?_⟩
    intro hi t v cs
    show BindEvent.mk [] (BindKind.named n)
      ∈ walkB (objSet s.bindings n (some h)) hi (DomNode.element t [(n, v)] cs) []
    exact named_mem_walkB s.bindings n h hi t v cs []

/-- Witness for C6: binding after a render errors; binding on a fresh
orchestrator succeeds and the directive fires on the next render. -/
theorem spec_c6_bind_prerender_only_witness :
    Reactive.bind
        ((Reactive.render (Reactive.init []) (fun _ => false)
          (DomNode.element "p" [] [])).1) "b" (some (fun _ _ => false))
      = Except.error ".bind() cannot be called after .render()"
    ∧ Reactive.bind (Reactive.init []) "b" (some (fun _ _ => false))
      = Except.ok { Reactive.init [] with
          bindings := objSet (Reactive.init []).bindings "b" (some (fun _ _ => false)) }
    ∧ BindEvent.mk [] (BindKind.named "b")
      ∈ (Reactive.render
          { Reactive.init [] with
            bindings := objSet (Reactive.init []).bindings "b" (some (fun _ _ => false)) }
          (fun _ => false) (DomNode.element "p" [("b", "")] [])).2 :=
  ⟨(spec_c6_bind_prerender_only
      ((Reactive.render (Reactive.init []) (fun _ => false) (DomNode.element "p" [] [])).1)
      "b" (fun _ _ => false)).1 (DomNode.element "p" [] []) rfl,
   ((spec_c6_bind_prerender_only (Reactive.init []) "b" (fun _ _ => false)).2 rfl).1,
   ((spec_c6_bind_prerender_only (Reactive.init []) "b" (fun _ _ => false)).2 rfl).2
     (fun _ => false) "p" "" []⟩

/-- Claim C10 — `destroy` deletes the rendered-root reference, so a
subsequent `bind` no longer raises the post-render configuration error:
on a rendered orchestrator `bind` errors, but after `destroy` (rendered
root gone) the same `bind` succeeds and mutates the registry. -/
theorem spec_c10_bind_after_destroy {V : Type} (s : Reactive V) (e : DomNode) (n : String)
    (h : Handler) (he : s.el = some e) :
    Reactive.bind s n (some h) = Except.error ".bind() cannot be called after .render()"
    ∧ (Reactive.destroy s).el = none
    ∧ Reactive.bind (Reactive.destroy s) n (some h)
        = Except.ok { Reactive.destroy s with
            bindings := objSet (Reactive.destroy s).bindings n (some h) } := by
  refine ⟨by simp [Reactive.bind, he], rfl, by simp [Reactive.bind, Reactive.destroy]⟩

/-- Witness for C10 at a concrete rendered orchestrator. -/
theorem spec_c10_bind_after_destroy_witness :
    Reactive.bind
        ((Reactive.render (Reactive.init []) (fun _ => false)
          (DomNode.element "p" [] [])).1) "b" (some (fun _ _ => false))
      = Except.error ".bind() cannot be called after .render()"
    ∧ (Reactive.destroy
        ((Reactive.render (Reactive.init []) (fun _ => false)
          (DomNode.element "p" [] [])).1)).el = none
    ∧ Reactive.bind
        (Reactive.destroy
          ((Reactive.render (Reactive.init []) (fun _ => false)
            (DomNode.element "p" [] [])).1)) "b" (some (fun _ _ => false))
        = Except.ok { Reactive.destroy
              ((Reactive.render (Reactive.init []) (fun _ => false)
                (DomNode.element "p" [] [])).1) with
            bindings := objSet (Reactive.destroy
              ((Reactive.render (Reactive.init []) (fun _ => false)
                (DomNode.element "p" [] [])).1)).bindings "b"
              (some (fun _ _ => false)) } :=
  spec_c10_bind_after_destroy
    ((Reactive.render (Reactive.init []) (fun _ => false) (DomNode.element "p" [] [])).1)
    (DomNode.element "p" [] []) "b" (fun _ _ => false) rfl

theorem getD_set_self {α : Type} (l : List α) (i : Nat) (a d : α) (h : i < l.length) :
    (l.set i a).getD i d = a := by
  simp [List.getD, List.getElem?_set_self, h]

/-- Claim C7 — `subview` returns a new orchestrator holding the very same
registry reference as the parent (same heap index), the parent's
configured adapter constructor (with a fresh adapter instance, not the
parent's), and the parent's view-delegate object by reference; and a
binding registered on the (unrendered) parent after the subview's creation
lands in the registry the subview sees and is activated when the subview
subsequently renders an element carrying that directive. -/
theorem spec_c7_subview_shares_registry {w : MiniWorld} {oid : Nat} {parent : MiniOrch}
    (hp : w.orchs[oid]? = some parent)
    (hinst : parent.adapterInst < w.instCount)
    (hreg : parent.regId < w.regHeap.length) :
    ∃ sub : MiniOrch,
      (w.subview oid).1.orchs[(w.subview oid).2]? = some sub
      ∧ sub.regId = parent.regId
      ∧ sub.adapterCtor = parent.adapterCtor
      ∧ sub.adapterInst ≠ parent.adapterInst
      ∧ sub.delegateId = parent.delegateId
      ∧ sub.el = none
      ∧ (∀ n h, parent.el = none →
          ∃ w2, (w.subview oid).1.bindW oid n (some h) = Except.ok w2
            ∧ w2.regOf (w.subview oid).2
                = objSet ((w.subview oid).1.regOf (w.subview oid).2) n (some h)
            ∧ ∀ hi t v cs,
                BindEvent.mk [] (BindKind.named n)
                  ∈ (w2.renderW (w.subview oid).2 hi (DomNode.element t [(n, v)] cs)).2) := by
  have holt : oid < w.orchs.length := (List.getElem?_eq_some.1 hp).1
  refine ⟨{ regId := parent.regId, adapterCtor := parent.adapterCtor,
            adapterInst := w.instCount, delegateId := parent.delegateId, el := none },
          ?_, rfl, rfl, Nat.ne_of_gt hinst, rfl, rfl, ?_⟩
  · show ((w.subview oid).1.orchs)[(w.subview oid).2]? = _
    simp only [MiniWorld.subview, hp, MiniWorld.newOrch]
    rw [List.getElem?_concat_length]
  · intro n h hn
    have hsub : w.subview oid
        = ({ regHeap := w.regHeap, delegateCount := w.delegateCount,
             instCount := w.instCount + 1,
             orchs := w.orchs ++
               [{ regId := parent.regId, adapterCtor := parent.adapterCtor,
                  adapterInst := w.instCount, delegateId := parent.delegateId,
                  el := none }] }, w.orchs.length) := by
      simp [MiniWorld.subview, hp, MiniWorld.newOrch]
    rw [hsub]
    have hoid : (w.orchs ++
        [{ regId := parent.regId, adapterCtor := parent.adapterCtor,
           adapterInst := w.instCount, delegateId := parent.delegateId,
           el := none : MiniOrch }])[oid]? = some parent := by
      rw [List.getElem?_append, if_pos holt]
      exact hp
    have hsid : (w.orchs ++
        [{ regId := parent.regId, adapterCtor := parent.adapterCtor,
           adapterInst := w.instCount, delegateId := parent.delegateId,
           el := none : MiniOrch }])[w.orchs.length]?
        = some { regId := parent.regId, adapterCtor := parent.adapterCtor,
                 adapterInst := w.instCount, delegateId := parent.delegateId,
                 el := none } := List.getElem?_concat_length _ _
    refine ⟨{ regHeap := w.regHeap.set parent.regId
                (objSet (w.regHeap.getD parent.regId []) n (some h)),
              delegateCount := w.delegateCount, instCount := w.instCount + 1,
              orchs := w.orchs ++
                [{ regId := parent.regId, adapterCtor := parent.adapterCtor,
                   adapterInst := w.instCount, delegateId := parent.delegateId,
                   el := none }] }, ?_, ?_, ?_⟩
    · simp only [MiniWorld.bindW, hoid]
      simp [hn]
    · simp only [MiniWorld.regOf, hsid]
      rw [getD_set_self _ _ _ _ hreg]
    · intro hi t v cs
      simp only [MiniWorld.renderW, hsid]
      rw [getD_set_self _ _ _ _ hreg]
      exact named_mem_walkB _ n h hi t v cs []

/-- Witness for C7 at a concrete one-orchestrator world. -/
theorem spec_c7_subview_shares_registry_witness :
    ∃ sub : MiniOrch,
      (c7World.subview 0).1.orchs[(c7World.subview 0).2]? = some sub
      ∧ sub.regId = c7Parent.regId
      ∧ sub.adapterCtor = c7Parent.adapterCtor
      ∧ sub.adapterInst ≠ c7Parent.adapterInst
      ∧ sub.delegateId = c7Parent.delegateId
      ∧ sub.el = none
      ∧ (∀ n h, c7Parent.el = none →
          ∃ w2, (c7World.subview 0).1.bindW 0 n (some h) = Except.ok w2
            ∧ w2.regOf (c7World.subview 0).2
                = objSet ((c7World.subview 0).1.regOf (c7World.subview 0).2) n (some h)
            ∧ ∀ hi t v cs,
                BindEvent.mk [] (BindKind.named n)
                  ∈ (w2.renderW (c7World.subview 0).2 hi (DomNode.element t [(n, v)] cs)).2) :=
  spec_c7_subview_shares_registry (by rfl) (by decide) (by decide)

end Dommit
